import Mathlib

/-!
Verification of the OMRON-to-Garmin/MQTT bridge (omron-garmin-bridge).

Shallow embedding of the Python sources:
* Python `str` is modelled as `List Char`.
* Python `int` is modelled as `Int` (unbounded); raw bytes are `Nat` values < 256.
* Python `datetime` is modelled as `PyDateTime` together with the validity
  predicate enforced by the `datetime` constructor (which raises `ValueError`
  outside those ranges; fallible code returns `Option`).
* SQLite tables are modelled as lists of rows; `record_hash` is the unique key.

Each embedded definition keeps the name of the Python function it translates.
-/

namespace Omron

/-- Python `datetime.datetime` restricted to the fields this program uses
(the program never constructs datetimes with microseconds). -/
structure PyDateTime where
  year : Nat
  month : Nat
  day : Nat
  hour : Nat
  minute : Nat
  second : Nat
deriving DecidableEq, Repr

/-- Gregorian leap-year rule used by Python's `datetime` module. -/
def isLeapYear (y : Nat) : Bool :=
  (y % 4 == 0 && y % 100 != 0) || y % 400 == 0

/-- Days in a month, as validated by `datetime.datetime(...)`. -/
def daysInMonth (y m : Nat) : Nat :=
  if m = 2 then (if isLeapYear y then 29 else 28)
  else if m = 4 ∨ m = 6 ∨ m = 9 ∨ m = 11 then 30
  else 31

/-- The range checks performed by the `datetime.datetime` constructor
(`MINYEAR = 1`, `MAXYEAR = 9999`); constructing a `datetime` outside these
ranges raises `ValueError`. -/
def validDateTime (t : PyDateTime) : Bool :=
  1 ≤ t.year && t.year ≤ 9999 &&
  1 ≤ t.month && t.month ≤ 12 &&
  1 ≤ t.day && t.day ≤ daysInMonth t.year t.month &&
  t.hour ≤ 23 && t.minute ≤ 59 && t.second ≤ 59

/-! ### Decimal rendering of integers (Python `str(int)` / `"%02d"`)

`decDigitChar n` is the ASCII digit for `n < 10`.  `natToDec` renders a `Nat`
in decimal with no leading zeros, via structurally decreasing fuel so that the
kernel can evaluate it on concrete inputs; `natToDec n` uses fuel `n`, which is
always sufficient since the argument strictly shrinks under division by 10. -/

def decDigitChar (n : Nat) : Char := Char.ofNat (48 + n)

def decDigitsAux : Nat → Nat → List Char
  | 0, n => [decDigitChar n]
  | fuel + 1, n =>
      if n < 10 then [decDigitChar n]
      else decDigitsAux fuel (n / 10) ++ [decDigitChar (n % 10)]

/-- Decimal rendering of a natural number, as produced by Python `str`. -/
def natToDec (n : Nat) : List Char := decDigitsAux n n

/-- Decimal rendering of a Python `int` (possibly negative). -/
def intToDec (i : Int) : List Char :=
  if i < 0 then '-' :: natToDec (-i).toNat else natToDec i.toNat

/-- Zero-padding to width 2, as in `datetime.isoformat`'s `%02d` fields. -/
def pad2 (n : Nat) : List Char :=
  List.replicate (2 - (natToDec n).length) '0' ++ natToDec n

/-- Zero-padding to width 4, as in `datetime.isoformat`'s `%04d` year. -/
def pad4 (n : Nat) : List Char :=
  List.replicate (4 - (natToDec n).length) '0' ++ natToDec n

/-- `datetime.isoformat()` for a microsecond-free datetime:
`YYYY-MM-DDTHH:MM:SS`. -/
def isoformat (t : PyDateTime) : List Char :=
  pad4 t.year ++ '-' ::
    (pad2 t.month ++ '-' ::
      (pad2 t.day ++ 'T' ::
        (pad2 t.hour ++ ':' ::
          (pad2 t.minute ++ ':' :: pad2 t.second))))

/-- `src/models.py` — `BloodPressureReading`. -/
structure BloodPressureReading where
  timestamp : PyDateTime
  systolic : Int
  diastolic : Int
  pulse : Int
  irregular_heartbeat : Bool := false
  body_movement : Bool := false
  user_slot : Int := 1
deriving DecidableEq, Repr

namespace BloodPressureReading

/-- `BloodPressureReading.record_hash` — the deduplication fingerprint:
`f"{timestamp.isoformat()}_{systolic}_{diastolic}_{pulse}_{user_slot}"`. -/
def record_hash (r : BloodPressureReading) : List Char :=
  isoformat r.timestamp ++ '_' ::
    (intToDec r.systolic ++ '_' ::
      (intToDec r.diastolic ++ '_' ::
        (intToDec r.pulse ++ '_' :: intToDec r.user_slot)))

/-- `BloodPressureReading.category` — WHO/ESC classification. -/
def category (r : BloodPressureReading) : List Char :=
  if r.systolic < 120 ∧ r.diastolic < 80 then "optimal".data
  else if r.systolic < 130 ∧ r.diastolic < 85 then "normal".data
  else if r.systolic < 140 ∧ r.diastolic < 90 then "high_normal".data
  else if r.systolic < 160 ∧ r.diastolic < 100 then "grade1_hypertension".data
  else if r.systolic < 180 ∧ r.diastolic < 110 then "grade2_hypertension".data
  else "grade3_hypertension".data

end BloodPressureReading

/-! ### Ledger — `src/duplicate_filter.py` (`DuplicateFilter`)

The SQLite table `uploaded_records` is modelled as a list of rows; the
`UNIQUE` constraint on `record_hash` is realised by `mark_as_uploaded`, which
inserts only when no row with the hash exists.  The autoincrement `id` and the
wall-clock `uploaded_at` column are not modelled (no claim mentions them). -/

/-- One row of the `uploaded_records` table. -/
structure UploadedRecord where
  record_hash : List Char
  timestamp : PyDateTime
  systolic : Int
  diastolic : Int
  pulse : Int
  irregular_heartbeat : Bool
  body_movement : Bool
  user_slot : Int
  category : List Char
  garmin_uploaded : Bool
  mqtt_published : Bool
deriving DecidableEq, Repr

/-- The `uploaded_records` table. -/
abbrev Ledger := List UploadedRecord

/-- `DuplicateFilter.is_duplicate` — `SELECT 1 ... WHERE record_hash = ?`. -/
def is_duplicate (l : Ledger) (r : BloodPressureReading) : Bool :=
  l.any (fun row => row.record_hash == r.record_hash)

/-- `DuplicateFilter.filter_new_records` — keeps the readings whose hash has
no row yet. -/
def filter_new_records (l : Ledger) (records : List BloodPressureReading) :
    List BloodPressureReading :=
  records.filter (fun r => !(l.any (fun row => row.record_hash == r.record_hash)))

/-- `DuplicateFilter.mark_as_uploaded` — `INSERT ... ON CONFLICT(record_hash)
DO UPDATE SET garmin_uploaded = garmin_uploaded OR excluded.garmin_uploaded,
mqtt_published = mqtt_published OR excluded.mqtt_published`. -/
def mark_as_uploaded (l : Ledger) (r : BloodPressureReading)
    (garmin : Bool := false) (mqtt : Bool := false) : Ledger :=
  if l.any (fun row => row.record_hash == r.record_hash) then
    l.map (fun row =>
      if row.record_hash == r.record_hash then
        { row with garmin_uploaded := row.garmin_uploaded || garmin,
                   mqtt_published := row.mqtt_published || mqtt }
      else row)
  else
    l ++ [{ record_hash := r.record_hash
            timestamp := r.timestamp
            systolic := r.systolic
            diastolic := r.diastolic
            pulse := r.pulse
            irregular_heartbeat := r.irregular_heartbeat
            body_movement := r.body_movement
            user_slot := r.user_slot
            category := r.category
            garmin_uploaded := garmin
            mqtt_published := mqtt }]

/-- `DuplicateFilter.update_upload_status` — `UPDATE uploaded_records SET
garmin_uploaded = ?, mqtt_published = ? WHERE record_hash = ?`, where a `None`
argument leaves the column out of the `SET` list. -/
def update_upload_status (l : Ledger) (r : BloodPressureReading)
    (garmin : Option Bool := none) (mqtt : Option Bool := none) : Ledger :=
  l.map (fun row =>
    if row.record_hash == r.record_hash then
      { row with garmin_uploaded := garmin.getD row.garmin_uploaded,
                 mqtt_published := mqtt.getD row.mqtt_published }
    else row)

/-- The `garmin_uploaded` column of the row keyed by `h` (if any). -/
def garmin_flag (l : Ledger) (h : List Char) : Option Bool :=
  (l.find? (fun row => row.record_hash == h)).map (·.garmin_uploaded)

/-- The `mqtt_published` column of the row keyed by `h` (if any). -/
def mqtt_flag (l : Ledger) (h : List Char) : Option Bool :=
  (l.find? (fun row => row.record_hash == h)).map (·.mqtt_published)

/-- A ledger operation: either `mark_as_uploaded` (upsert) or
`update_upload_status`. -/
inductive LedgerOp where
  | upsert (r : BloodPressureReading) (garmin mqtt : Bool)
  | updateStatus (r : BloodPressureReading) (garmin mqtt : Option Bool)

/-- Apply one ledger operation. -/
def applyLedgerOp (l : Ledger) : LedgerOp → Ledger
  | .upsert r g m => mark_as_uploaded l r g m
  | .updateStatus r g m => update_upload_status l r g m

/-- Apply a sequence of ledger operations in order. -/
def applyLedgerOps (l : Ledger) (ops : List LedgerOp) : Ledger :=
  ops.foldl applyLedgerOp l

/-- An operation never passes an explicit `False` delta to
`update_upload_status` (upserts are unrestricted: they OR-merge). -/
def neverClears : LedgerOp → Prop
  | .upsert _ _ _ => True
  | .updateStatus _ g m => g ≠ some false ∧ m ≠ some false

/-! ### Sink adapters and the sync orchestrator — `src/main.py`

The network effects are abstracted by outcome oracles: `garminOutcome r`
is what `GarminUploader.upload_reading` does for reading `r` (uploads,
skips as a remote duplicate, or raises — caught by `upload_readings` and
counted as failed), and `mqttOutcome r` is the boolean result of
`MQTTPublisher.publish_reading`. -/

/-- Result of `GarminUploader.upload_reading` for one reading: returned
`True` (uploaded), returned `False` (remote duplicate), or raised (the
`except` branch of `upload_readings` logs and continues). -/
inductive PushOutcome where
  | success
  | skippedDuplicate
  | failed
deriving DecidableEq, Repr

/-- `GarminUploader.upload_readings` — iterates the readings, counting
`(uploaded, skipped)`; exceptions are absorbed and counted in neither. -/
def upload_readings (outcome : BloodPressureReading → PushOutcome)
    (readings : List BloodPressureReading) : Nat × Nat :=
  readings.foldl
    (fun acc r =>
      match outcome r with
      | .success => (acc.1 + 1, acc.2)
      | .skippedDuplicate => (acc.1, acc.2 + 1)
      | .failed => acc)
    (0, 0)

/-- `MQTTPublisher.publish_readings` — counts `(success, failure)`. -/
def publish_readings (outcome : BloodPressureReading → Bool)
    (readings : List BloodPressureReading) : Nat × Nat :=
  readings.foldl
    (fun acc r => if outcome r then (acc.1 + 1, acc.2) else (acc.1, acc.2 + 1))
    (0, 0)

/-- State of `self.garmin` as seen by the orchestrator
(`None`, or a `GarminUploader` with its `is_logged_in` property). -/
structure GarminSink where
  is_logged_in : Bool

/-- State of `self.mqtt` (`None`, or an `MQTTPublisher` with its
`is_connected` property). -/
structure MqttSink where
  is_connected : Bool

/-- `OmronGarminBridge.upload_to_garmin` — returns the
`(uploaded, skipped, failed)` counters and the ledger after the
`for record in records[:uploaded]: mark_as_uploaded(record, garmin=True,
mqtt=False)` loop. -/
def upload_to_garmin (garmin : Option GarminSink)
    (outcome : BloodPressureReading → PushOutcome)
    (ledger : Ledger) (records : List BloodPressureReading) :
    (Nat × Nat × Nat) × Ledger :=
  match garmin with
  | none => ((0, 0, records.length), ledger)
  | some g =>
    if !g.is_logged_in then ((0, 0, records.length), ledger)
    else
      let counts := upload_readings outcome records
      let uploaded := counts.1
      let skipped := counts.2
      let failed := records.length - uploaded - skipped
      let ledger2 := (records.take uploaded).foldl
        (fun l r => mark_as_uploaded l r true false) ledger
      ((uploaded, skipped, failed), ledger2)

/-- `OmronGarminBridge.publish_to_mqtt` — returns `(success, failure)` and
the ledger after `for record in records[:success]: mark_as_uploaded(record,
garmin=False, mqtt=True)`. -/
def publish_to_mqtt (mqtt : Option MqttSink)
    (outcome : BloodPressureReading → Bool)
    (ledger : Ledger) (records : List BloodPressureReading) :
    (Nat × Nat) × Ledger :=
  match mqtt with
  | none => ((0, records.length), ledger)
  | some m =>
    if !m.is_connected then ((0, records.length), ledger)
    else
      let counts := publish_readings outcome records
      let ledger2 := (records.take counts.1).foldl
        (fun l r => mark_as_uploaded l r false true) ledger
      ((counts.1, counts.2), ledger2)

/-- The `omron:` section of the configuration consumed by
`OmronGarminBridge.read_from_device` (`device_model` and `mac_address` only
select the BLE peer and are irrelevant here). -/
structure OmronConfig where
  read_mode : List Char
  sync_time : Bool

/-- `OmronGarminBridge.read_from_device` — the `(only_new, sync_time)`
arguments it passes to `client.read_all_records_flat`.  The source passes
`only_new=False` verbatim (main.py line 168); `config["omron"]["read_mode"]`
is never consulted. -/
def read_from_device_args (cfg : OmronConfig) : Bool × Bool :=
  (false, cfg.sync_time)

/-- The summary dictionary built by `OmronGarminBridge.sync`. -/
structure SyncSummary where
  device_records : Nat
  new_records : Nat
  garmin_uploaded : Nat
  garmin_skipped : Nat
  garmin_failed : Nat
  mqtt_success : Nat
  mqtt_failed : Nat
  errors : List (List Char)
deriving DecidableEq, Repr

/-- Observable result of one `sync` call: the returned summary, the final
ledger, and the `(status, message)` pairs passed to
`MQTTPublisher.publish_status` during the call. -/
structure SyncResult where
  summary : SyncSummary
  ledger : Ledger
  statusPublishes : List (List Char × List Char)
deriving DecidableEq, Repr

/-- `OmronGarminBridge.sync` — one-shot sync cycle over the already-read
device records (`read_from_device` is the BLE effect; its result is the
`deviceRecords` argument).  Mirrors the early returns of the source: empty
device read, empty `filter_new_records` result, and `dry_run` all return
before any sink is touched, and no status is published on those paths. -/
def sync (deviceRecords : List BloodPressureReading) (ledger : Ledger)
    (garmin : Option GarminSink)
    (garminOutcome : BloodPressureReading → PushOutcome)
    (mqtt : Option MqttSink)
    (mqttOutcome : BloodPressureReading → Bool)
    (garmin_enabled : Bool := true) (mqtt_enabled : Bool := true)
    (dry_run : Bool := false) : SyncResult :=
  let summary0 : SyncSummary :=
    { device_records := deviceRecords.length, new_records := 0,
      garmin_uploaded := 0, garmin_skipped := 0, garmin_failed := 0,
      mqtt_success := 0, mqtt_failed := 0, errors := [] }
  if deviceRecords.isEmpty then
    { summary := summary0, ledger := ledger, statusPublishes := [] }
  else
    let new_records := filter_new_records ledger deviceRecords
    let summary1 := { summary0 with new_records := new_records.length }
    if new_records.isEmpty then
      { summary := summary1, ledger := ledger, statusPublishes := [] }
    else if dry_run then
      { summary := summary1, ledger := ledger, statusPublishes := [] }
    else
      let garminStep :=
        if garmin_enabled then upload_to_garmin garmin garminOutcome ledger new_records
        else ((0, 0, 0), ledger)
      let summary2 := { summary1 with
        garmin_uploaded := garminStep.1.1,
        garmin_skipped := garminStep.1.2.1,
        garmin_failed := garminStep.1.2.2 }
      let mqttStep :=
        if mqtt_enabled then publish_to_mqtt mqtt mqttOutcome garminStep.2 new_records
        else ((0, 0), garminStep.2)
      let summary3 := { summary2 with
        mqtt_success := mqttStep.1.1,
        mqtt_failed := mqttStep.1.2 }
      let publishes :=
        match mqtt with
        | some m =>
          if m.is_connected then
            [("synced".data,
              ("Synced " ++ toString new_records.length ++ " new records").data)]
          else []
        | none => []
      { summary := summary3, ledger := mqttStep.2, statusPublishes := publishes }

/-! ### Device driver — `src/omron_ble/devices/base.py` and `hem_7361t.py`

Byte strings are `List Nat` (each element < 256 where it comes from a real
buffer).  Only the little-endian path of `_extract_bits` is embedded: every
driver in the repository sets `device_endianness = "little"`. -/

/-- `int.from_bytes(data, "little")`. -/
def intFromBytesLE : List Nat → Nat
  | [] => 0
  | b :: rest => b + 256 * intFromBytesLE rest

/-- `BaseOmronDevice._extract_bits` (little-endian device):
`(int.from_bytes(data) >> (len(data)*8 - (last_bit+1))) &
((1 << (last_bit-first_bit+1)) - 1)`. -/
def extract_bits (data : List Nat) (first_bit last_bit : Nat) : Nat :=
  let bigInt := intFromBytesLE data
  let shifted := bigInt >>> (data.length * 8 - (last_bit + 1))
  shifted &&& (2 ^ (last_bit - first_bit + 1) - 1)

/-- `HEM7361T.parse_record` — decodes one 16-byte record.  The
`datetime(...)` construction raises on out-of-range fields (the caller logs
and skips the record), modelled by `Option`. -/
def parse_record (record_bytes : List Nat) : Option BloodPressureReading :=
  let minute := extract_bits record_bytes 68 73
  let second := min (extract_bits record_bytes 74 79) 59
  let mov := extract_bits record_bytes 80 80 != 0
  let ihb := extract_bits record_bytes 81 81 != 0
  let month := extract_bits record_bytes 82 85
  let day := extract_bits record_bytes 86 90
  let hour := extract_bits record_bytes 91 95
  let year := extract_bits record_bytes 98 103 + 2000
  let pulse := extract_bits record_bytes 104 111
  let diastolic := extract_bits record_bytes 112 119
  let systolic := extract_bits record_bytes 120 127 + 25
  let ts : PyDateTime :=
    { year := year, month := month, day := day,
      hour := hour, minute := minute, second := second }
  if validDateTime ts then
    some { timestamp := ts, systolic := systolic, diastolic := diastolic,
           pulse := pulse, irregular_heartbeat := ihb, body_movement := mov }
  else none

/-- The 128-bit record value with each field at the bit positions documented
for `HEM7361T.parse_record` (big-endian bit numbering: a field ending at bit
`l` sits at weight `2 ^ (127 - l)`): minute[68..73], second[74..79], mov[80],
ihb[81], month[82..85], day[86..90], hour[91..95], year−2000[98..103],
pulse[104..111], diastolic[112..119], systolic−25[120..127]. -/
def recordFieldsVal (r : BloodPressureReading) : Nat :=
  (r.systolic - 25).toNat
    + r.diastolic.toNat * 2 ^ 8
    + r.pulse.toNat * 2 ^ 16
    + (r.timestamp.year - 2000) * 2 ^ 24
    + r.timestamp.hour * 2 ^ 32
    + r.timestamp.day * 2 ^ 37
    + r.timestamp.month * 2 ^ 42
    + r.irregular_heartbeat.toNat * 2 ^ 46
    + r.body_movement.toNat * 2 ^ 47
    + r.timestamp.second * 2 ^ 48
    + r.timestamp.minute * 2 ^ 54

/-- The 16 little-endian bytes of a 128-bit value. -/
def toLEBytes16 (n : Nat) : List Nat :=
  [n % 256, n / 2 ^ 8 % 256, n / 2 ^ 16 % 256, n / 2 ^ 24 % 256,
   n / 2 ^ 32 % 256, n / 2 ^ 40 % 256, n / 2 ^ 48 % 256, n / 2 ^ 56 % 256,
   n / 2 ^ 64 % 256, n / 2 ^ 72 % 256, n / 2 ^ 80 % 256, n / 2 ^ 88 % 256,
   n / 2 ^ 96 % 256, n / 2 ^ 104 % 256, n / 2 ^ 112 % 256, n / 2 ^ 120 % 256]

/-- The spec's test-side encoder (§8 invariant 1): the 16-byte little-endian
encoding of a reading's fields at the bit positions of the record format.
There is no encoder in `src/`; this follows the spec's wording and is
compared against `parse_record`. -/
def specEncodeRecord (r : BloodPressureReading) : List Nat :=
  toLEBytes16 (recordFieldsVal r)

/-- One `{address, size}` entry of a read plan (Python `int` values). -/
structure ReadChunk where
  address : Int
  size : Int
deriving DecidableEq, Repr

/-- Device-layout constants of `BaseOmronDevice` (the fields the embedded
methods consult). -/
structure DeviceLayout where
  user_start_addresses : List Int
  records_per_user : List Int
  record_byte_size : Int
  settings_unread_records_bytes : Nat × Nat

/-- The `HEM7361T` layout constants. -/
def hem7361t : DeviceLayout :=
  { user_start_addresses := [0x98, 0x6D8]
    records_per_user := [100, 100]
    record_byte_size := 0x10
    settings_unread_records_bytes := (0x00, 0x10) }

/-- Body of `BaseOmronDevice._calc_ring_buffer_read` after the
`user_start_addresses[user_idx]` / `records_per_user[user_idx]` lookups. -/
def calcRingBufferReadCore (start_addr max_records record_byte_size
    unread last_slot : Int) : List ReadChunk :=
  if last_slot < unread then
    [{ address := start_addr, size := record_byte_size * last_slot },
     { address := start_addr + (max_records + last_slot - unread) * record_byte_size,
       size := record_byte_size * (unread - last_slot) }]
  else
    [{ address := start_addr + (last_slot - unread) * record_byte_size,
       size := record_byte_size * unread }]

/-- `BaseOmronDevice._calc_ring_buffer_read` (list indexing is total in the
source only for valid `user_idx`; out-of-range indices would raise). -/
def calc_ring_buffer_read (d : DeviceLayout) (user_idx : Nat)
    (unread last_slot : Int) : List ReadChunk :=
  calcRingBufferReadCore (d.user_start_addresses.getD user_idx 0)
    (d.records_per_user.getD user_idx 0) d.record_byte_size unread last_slot

/-- `BaseOmronDevice._get_all_records_commands` — one full-ring chunk per
user slot. -/
def get_all_records_commands (d : DeviceLayout) : List (List ReadChunk) :=
  (List.range d.user_start_addresses.length).map (fun user_idx =>
    [{ address := d.user_start_addresses.getD user_idx 0,
       size := d.records_per_user.getD user_idx 0 * d.record_byte_size }])

/-- `BaseOmronDevice._get_unread_records_commands` — parses
`last_slot` and `unread_count` for each user out of the cached settings
bytes and delegates to `_calc_ring_buffer_read`. -/
def get_unread_records_commands (d : DeviceLayout)
    (cached_settings : List Nat) : List (List ReadChunk) :=
  let info_bytes := (cached_settings.drop d.settings_unread_records_bytes.1).take
    (d.settings_unread_records_bytes.2 - d.settings_unread_records_bytes.1)
  (List.range d.user_start_addresses.length).map (fun user_idx =>
    let last_slot := extract_bits ((info_bytes.drop (2 * user_idx)).take 2) 8 15
    let unread_count :=
      extract_bits ((info_bytes.drop (2 * user_idx + 4)).take 2) 8 15
    calc_ring_buffer_read d user_idx unread_count last_slot)

/-- The read-plan actually used by `get_all_records` for a given
`use_unread_counter` flag. -/
def get_all_records_plan (d : DeviceLayout) (use_unread_counter : Bool)
    (cached_settings : List Nat) : List (List ReadChunk) :=
  if use_unread_counter then get_unread_records_commands d cached_settings
  else get_all_records_commands d

/-- The empty-slot test of `get_all_records`:
`record_bytes == b"\xff" * record_byte_size`. -/
def isEmptyRecordChunk (record_byte_size : Nat) (chunk : List Nat) : Bool :=
  chunk == List.replicate record_byte_size 0xFF

/-! ### Transport / protocol — `src/omron_ble/protocol.py` -/

/-- XOR of all bytes (the frame CRC; a valid frame XORs to 0). -/
def xorBytes (l : List Nat) : Nat := l.foldl (fun a b => a ^^^ b) 0

/-- The fields `_rx_callback` extracts from one assembled frame. -/
structure RxFrame where
  packet_type : List Nat
  eeprom_address : List Nat
  data_bytes : List Nat
deriving DecidableEq, Repr

/-- Frame-processing tail of `OmronBLEProtocol._rx_callback`, applied to the
assembled and size-truncated `combined_rx` buffer: CRC check (raises
`ValueError` on nonzero XOR), then header extraction; a declared payload
length larger than `len - 8` is replaced by `0xFF` repeated that many times,
the `8f00` end-of-transmission frame keeps one error byte, and otherwise the
declared payload is sliced out. -/
def rxProcessFrame (combined_rx : List Nat) : Except (List Char) RxFrame :=
  if xorBytes combined_rx ≠ 0 then .error "Data corruption in RX".data
  else
    let packet_type := (combined_rx.drop 1).take 2
    let eeprom_address := (combined_rx.drop 3).take 2
    let expected_data_bytes := combined_rx.getD 5 0
    let data_bytes :=
      if (expected_data_bytes : Int) > (combined_rx.length : Int) - 8 then
        List.replicate expected_data_bytes 0xFF
      else if packet_type = [0x8f, 0x00] then (combined_rx.drop 6).take 1
      else (combined_rx.drop 6).take expected_data_bytes
    .ok { packet_type := packet_type, eeprom_address := eeprom_address,
          data_bytes := data_bytes }

/-- `address.to_bytes(2, "big")` (the source raises `OverflowError` for
addresses ≥ 2^16; all device addresses fit). -/
def toBytesBE2 (n : Nat) : List Nat := [n / 256 % 256, n % 256]

/-- Response handling of `OmronBLEProtocol.read_eeprom_block`: process the
inbound frame, then check the echoed address and the `8100` packet type;
on success return the payload bytes. -/
def read_eeprom_block_result (combined_rx : List Nat) (address : Nat) :
    Except (List Char) (List Nat) :=
  match rxProcessFrame combined_rx with
  | .error e => .error e
  | .ok rx =>
    if rx.eeprom_address ≠ toBytesBE2 address then
      .error "Received address doesn't match requested".data
    else if rx.packet_type ≠ [0x81, 0x00] then
      .error "Invalid packet type in EEPROM read".data
    else .ok rx.data_bytes

/-- `OmronBLEProtocol._send_and_wait`, abstracted over the per-attempt
receive outcome: `rx_complete k` tells whether attempt `k` (0-based) sees a
complete inbound frame within the timeout window.  Mirrors the source loop:
`retries = 0; max_retries = 5`; a failed attempt increments `retries` and
raises `TimeoutError` once `retries >= max_retries`. -/
def send_and_wait_from (rx_complete : Nat → Bool) (retries : Nat) :
    Except (List Char) Unit :=
  if rx_complete retries then .ok ()
  else
    let r := retries + 1
    if 5 ≤ r then .error "Transmission failed after 5 retries".data
    else send_and_wait_from rx_complete r
termination_by 5 - retries
decreasing_by simp only [not_le] at *; omega

/-- `OmronBLEProtocol._send_and_wait` (entered with `retries = 0`). -/
def send_and_wait (rx_complete : Nat → Bool) : Except (List Char) Unit :=
  send_and_wait_from rx_complete 0

/-! ### Concrete example data (scenario S1 of the spec and variants) -/

/-- The S1 reading: `2025-12-26T22:59:22`, 139/83 mmHg, pulse 73. -/
def exR1 : BloodPressureReading :=
  { timestamp := ⟨2025, 12, 26, 22, 59, 22⟩, systolic := 139, diastolic := 83,
    pulse := 73, irregular_heartbeat := false, body_movement := false,
    user_slot := 1 }

/-- A second reading, differing from `exR1` in pulse only. -/
def exR2 : BloodPressureReading :=
  { timestamp := ⟨2025, 12, 26, 22, 59, 22⟩, systolic := 139, diastolic := 83,
    pulse := 74, irregular_heartbeat := false, body_movement := false,
    user_slot := 1 }

/-- A Garmin outcome oracle under which `exR1`'s upload raises (counted
failed) and every other reading uploads successfully. -/
def exOutcome (r : BloodPressureReading) : PushOutcome :=
  if r = exR1 then .failed else .success

/-- The S1 reading assigned to user slot 2 (as `get_all_records` does for
the second ring). -/
def exR1slot2 : BloodPressureReading :=
  { timestamp := ⟨2025, 12, 26, 22, 59, 22⟩, systolic := 139, diastolic := 83,
    pulse := 73, irregular_heartbeat := false, body_movement := false,
    user_slot := 2 }

/-- Decimal value of a digit string (left inverse of `natToDec`, used to
prove the decimal renderings injective). -/
def decValue (s : List Char) : Nat :=
  s.foldl (fun acc c => acc * 10 + (c.toNat - 48)) 0

/-! ## Theorems -/

/-- **C6.** For every `(last_slot, unread, capacity)` with
`1 ≤ unread ≤ capacity` and `0 ≤ last_slot ≤ capacity`, the "new only"
read-plan is: if `last_slot ≥ unread`, a single chunk at
`start_addr + (last_slot − unread) × record_byte_size` of size
`unread × record_byte_size`; otherwise exactly two chunks,
`{start_addr, last_slot × record_byte_size}` followed by
`{start_addr + (capacity + last_slot − unread) × record_byte_size,
(unread − last_slot) × record_byte_size}`; and the chunk sizes always sum to
`unread × record_byte_size`. -/
theorem ring_buffer_read_plan (start_addr capacity rbs unread last_slot : Int)
    (h1 : 1 ≤ unread) (h2 : unread ≤ capacity)
    (h3 : 0 ≤ last_slot) (h4 : last_slot ≤ capacity) :
    (unread ≤ last_slot →
      calcRingBufferReadCore start_addr capacity rbs unread last_slot =
        [{ address := start_addr + (last_slot - unread) * rbs,
           size := unread * rbs }]) ∧
    (last_slot < unread →
      calcRingBufferReadCore start_addr capacity rbs unread last_slot =
        [{ address := start_addr, size := last_slot * rbs },
         { address := start_addr + (capacity + last_slot - unread) * rbs,
           size := (unread - last_slot) * rbs }]) ∧
    ((calcRingBufferReadCore start_addr capacity rbs unread last_slot).map
        (·.size)).sum = unread * rbs := by
  refine ⟨?_, ?_, ?_⟩
  · intro hge
    rw [calcRingBufferReadCore, if_neg (by omega)]
    simp [ReadChunk.mk.injEq, Int.mul_comm]
  · intro hlt
    rw [calcRingBufferReadCore, if_pos hlt]
    simp [ReadChunk.mk.injEq, Int.mul_comm]
  · rw [calcRingBufferReadCore]
    by_cases hlt : last_slot < unread
    · rw [if_pos hlt]; simp; ring
    · rw [if_neg hlt]; simp [Int.mul_comm]

/-- **C6 witness.** Scenario S2: `capacity = 100`, `last_slot = 5`,
`unread = 20` on user slot 0 of the HEM-7361T (`start = 0x98`,
`record_byte_size = 16`) yields `{0x98, 5×16}` then `{0x98 + 85×16, 15×16}`,
totalling `20 × 16 = 320`. -/
theorem ring_buffer_read_plan_witness :
    calcRingBufferReadCore 0x98 100 16 20 5 =
      [{ address := 0x98, size := 5 * 16 },
       { address := 0x98 + (100 + 5 - 20) * 16, size := (20 - 5) * 16 }] ∧
    ((calcRingBufferReadCore 0x98 100 16 20 5).map (·.size)).sum = 20 * 16 :=
  ⟨(ring_buffer_read_plan 0x98 100 16 20 5 (by decide) (by decide) (by decide)
      (by decide)).2.1 (by decide),
   (ring_buffer_read_plan 0x98 100 16 20 5 (by decide) (by decide) (by decide)
      (by decide)).2.2⟩

/-- **C5 (amended).** When the unread count is 0, the "new only" read-plan
for the slot is a single chunk `{start_addr + last_slot × record_byte_size,
0}` of size 0 — not an empty list of chunks. -/
theorem ring_buffer_read_zero_unread (d : DeviceLayout) (user_idx : Nat)
    (last_slot : Int) (h : 0 ≤ last_slot) :
    calc_ring_buffer_read d user_idx 0 last_slot =
      [{ address := d.user_start_addresses.getD user_idx 0 +
           last_slot * d.record_byte_size, size := 0 }] := by
  rw [calc_ring_buffer_read, calcRingBufferReadCore, if_neg (by omega)]
  simp [ReadChunk.mk.injEq, Int.mul_comm]

/-- **C5 witness.** HEM-7361T user slot 0, `last_slot = 50`, `unread = 0`:
the plan is the single zero-size chunk at `0x98 + 50·16 = 952`. -/
theorem ring_buffer_read_zero_unread_witness :
    calc_ring_buffer_read hem7361t 0 0 50 = [{ address := 952, size := 0 }] := by
  have h := ring_buffer_read_zero_unread hem7361t 0 50 (by decide)
  simpa using h

/-- **C5 counterexample.** The claim says `unread == 0` emits no chunks; the
code (confirmed by its own test `test_zero_unread`) emits exactly one chunk
`{address, 0}`. -/
theorem ring_buffer_read_zero_unread_counterexample :
    calc_ring_buffer_read hem7361t 0 0 50 ≠ [] ∧
    calc_ring_buffer_read hem7361t 0 0 50 = [{ address := 952, size := 0 }] := by
  constructor
  · decide
  · decide

/-- **C3 (code divergence).** `read_from_device` passes `only_new=False` to
`read_all_records_flat` for every configuration — including the default
`read_mode: "new_only"` — so the sync cycle's device read always takes the
full-ring path, never the unread-counter path; the two paths genuinely
differ (shown on all-zero cached settings). -/
theorem read_mode_ignored_by_read_from_device :
    (∀ cfg : OmronConfig, (read_from_device_args cfg).1 = false) ∧
    read_from_device_args { read_mode := "new_only".data, sync_time := true } =
      (false, true) ∧
    get_all_records_plan hem7361t
        (read_from_device_args
          { read_mode := "new_only".data, sync_time := true }).1
        (List.replicate 16 0) = get_all_records_commands hem7361t ∧
    get_all_records_plan hem7361t true (List.replicate 16 0) ≠
      get_all_records_plan hem7361t false (List.replicate 16 0) := by
  exact ⟨fun _ => rfl, rfl, rfl, by decide⟩

/-- Both branches of the row-rewriting functions used by
`mark_as_uploaded` and `update_upload_status` keep `record_hash`. -/
theorem flags_mono_mark (l : Ledger) (r : BloodPressureReading) (g m : Bool)
    (h : List Char) :
    (garmin_flag l h = some true →
      garmin_flag (mark_as_uploaded l r g m) h = some true) ∧
    (mqtt_flag l h = some true →
      mqtt_flag (mark_as_uploaded l r g m) h = some true) := by
  unfold mark_as_uploaded garmin_flag mqtt_flag
  by_cases hany : l.any (fun row => row.record_hash == r.record_hash)
  · rw [if_pos hany, List.find?_map]
    have hp : ((fun row : UploadedRecord => row.record_hash == h) ∘
        (fun row => if row.record_hash == r.record_hash then
          { row with garmin_uploaded := row.garmin_uploaded || g,
                     mqtt_published := row.mqtt_published || m }
        else row)) = (fun row : UploadedRecord => row.record_hash == h) := by
      funext row
      by_cases hx : row.record_hash == r.record_hash <;> simp [Function.comp, hx]
    rw [hp]
    constructor <;> intro hflag
    · obtain ⟨row0, hrow0, hg⟩ := Option.map_eq_some'.mp hflag
      rw [hrow0]
      by_cases hx : row0.record_hash = r.record_hash <;> simp [hx, hg]
    · obtain ⟨row0, hrow0, hg⟩ := Option.map_eq_some'.mp hflag
      rw [hrow0]
      by_cases hx : row0.record_hash = r.record_hash <;> simp [hx, hg]
  · rw [if_neg hany, List.find?_append]
    constructor <;> intro hflag
    · obtain ⟨row0, hrow0, hg⟩ := Option.map_eq_some'.mp hflag
      rw [hrow0]; simp [hg]
    · obtain ⟨row0, hrow0, hg⟩ := Option.map_eq_some'.mp hflag
      rw [hrow0]; simp [hg]

/-- `update_upload_status` preserves `true` flags as long as it is not
passed an explicit `some false` delta. -/
theorem flags_mono_update (l : Ledger) (r : BloodPressureReading)
    (g m : Option Bool) (hg : g ≠ some false) (hm : m ≠ some false)
    (h : List Char) :
    (garmin_flag l h = some true →
      garmin_flag (update_upload_status l r g m) h = some true) ∧
    (mqtt_flag l h = some true →
      mqtt_flag (update_upload_status l r g m) h = some true) := by
  unfold update_upload_status garmin_flag mqtt_flag
  rw [List.find?_map]
  have hp : ((fun row : UploadedRecord => row.record_hash == h) ∘
      (fun row => if row.record_hash == r.record_hash then
        { row with garmin_uploaded := g.getD row.garmin_uploaded,
                   mqtt_published := m.getD row.mqtt_published }
      else row)) = (fun row : UploadedRecord => row.record_hash == h) := by
    funext row
    by_cases hx : row.record_hash == r.record_hash <;> simp [Function.comp, hx]
  rw [hp]
  constructor <;> intro hflag
  · obtain ⟨row0, hrow0, hflag0⟩ := Option.map_eq_some'.mp hflag
    rw [hrow0]
    by_cases hx : row0.record_hash = r.record_hash
    · rcases g with _ | gv
      · simp [hx, hflag0]
      · rcases gv with _ | _
        · exact absurd rfl hg
        · simp [hx]
    · simp [hx, hflag0]
  · obtain ⟨row0, hrow0, hflag0⟩ := Option.map_eq_some'.mp hflag
    rw [hrow0]
    by_cases hx : row0.record_hash = r.record_hash
    · rcases m with _ | mv
      · simp [hx, hflag0]
      · rcases mv with _ | _
        · exact absurd rfl hm
        · simp [hx]
    · simp [hx, hflag0]

/-- One ledger operation satisfying `neverClears` preserves `true` flags. -/
theorem applyLedgerOp_mono (l : Ledger) (op : LedgerOp)
    (hop : neverClears op) (h : List Char) :
    (garmin_flag l h = some true →
      garmin_flag (applyLedgerOp l op) h = some true) ∧
    (mqtt_flag l h = some true →
      mqtt_flag (applyLedgerOp l op) h = some true) := by
  cases op with
  | upsert r g m => exact flags_mono_mark l r g m h
  | updateStatus r g m => exact flags_mono_update l r g m hop.1 hop.2 h

/-- **C1 (amended).** Across any sequence of `mark_as_uploaded` (upsert)
operations and of `update_upload_status` operations whose deltas are never
an explicit `False`, the per-sink delivery booleans `garmin_uploaded` and
`mqtt_published` never transition from true to false.  (Upserts OR-merge,
so they are unrestricted; `update_upload_status` assigns the given value,
so a `False` delta — excluded here — can clear a flag.) -/
theorem ledger_delivery_flags_monotone (ops : List LedgerOp)
    (hops : ∀ op ∈ ops, neverClears op) (l : Ledger) (h : List Char) :
    (garmin_flag l h = some true →
      garmin_flag (applyLedgerOps l ops) h = some true) ∧
    (mqtt_flag l h = some true →
      mqtt_flag (applyLedgerOps l ops) h = some true) := by
  induction ops generalizing l with
  | nil => exact ⟨id, id⟩
  | cons op rest ih =>
    have hop := hops op (by simp)
    have hrest : ∀ o ∈ rest, neverClears o := fun o ho => hops o (by simp [ho])
    have step := applyLedgerOp_mono l op hop h
    have tail := ih hrest (applyLedgerOp l op)
    exact ⟨fun hg => tail.1 (step.1 hg), fun hm => tail.2 (step.2 hm)⟩

/-- **C1 witness.** Starting from a ledger whose row for `exR1` has
`garmin_uploaded = True`, an upsert of `exR2` followed by
`update_upload_status(exR1, garmin=True)` leaves the flag `True`. -/
theorem ledger_delivery_flags_monotone_witness :
    (∀ op ∈ [LedgerOp.upsert exR2 true true,
             LedgerOp.updateStatus exR1 (some true) none], neverClears op) ∧
    garmin_flag (mark_as_uploaded [] exR1 true false) exR1.record_hash =
      some true ∧
    garmin_flag (applyLedgerOps (mark_as_uploaded [] exR1 true false)
        [LedgerOp.upsert exR2 true true,
         LedgerOp.updateStatus exR1 (some true) none]) exR1.record_hash =
      some true := by
  have hops : ∀ op ∈ [LedgerOp.upsert exR2 true true,
      LedgerOp.updateStatus exR1 (some true) none], neverClears op := by
    intro op hop
    simp only [List.mem_cons, List.not_mem_nil, or_false] at hop
    rcases hop with rfl | rfl
    · exact trivial
    · exact ⟨by decide, by decide⟩
  exact ⟨hops, by decide,
    (ledger_delivery_flags_monotone _ hops _ _).1 (by decide)⟩

/-- **C1 counterexample.** The claim as stated is false: after
`mark_as_uploaded(exR1, garmin=True)` sets `garmin_uploaded = True`, the
operation `update_upload_status(exR1, garmin=False)` — a legal member of
"any sequence of upsert/update_status operations" — sets it back to
`False` (`UPDATE ... SET garmin_uploaded = ?` assigns, it does not
OR-merge). -/
theorem ledger_delivery_flags_counterexample :
    garmin_flag (mark_as_uploaded [] exR1 true false) exR1.record_hash =
      some true ∧
    garmin_flag (update_upload_status (mark_as_uploaded [] exR1 true false)
        exR1 (some false) none) exR1.record_hash = some false := by
  constructor
  · decide
  · decide

/-- **C2 (code bug).** `upload_to_garmin` records Garmin delivery for
`records[:uploaded]` — the positional prefix of the candidate list — not
for the readings whose push actually succeeded.  Under `exOutcome`
(`exR1` fails, `exR2` succeeds) the counters are `(1, 0, 1)`, yet the
ledger ends up with delivery recorded for the *failed* `exR1` and no row
at all for the *succeeded* `exR2`, contradicting both the claim and the
source's own comment ("Mark successfully uploaded in local database"). -/
theorem upload_to_garmin_marks_prefix_not_successes :
    exOutcome exR1 = PushOutcome.failed ∧
    exOutcome exR2 = PushOutcome.success ∧
    (upload_to_garmin (some ⟨true⟩) exOutcome [] [exR1, exR2]).1 =
      (1, 0, 1) ∧
    garmin_flag (upload_to_garmin (some ⟨true⟩) exOutcome [] [exR1, exR2]).2
      exR1.record_hash = some true ∧
    garmin_flag (upload_to_garmin (some ⟨true⟩) exOutcome [] [exR1, exR2]).2
      exR2.record_hash = none := by
  refine ⟨by decide, by decide, by decide, by decide, by decide⟩

/-- **C4 (amended).** When `filter_new_records` returns no candidates, the
sync cycle returns the empty summary (zero per-sink counters, no errors),
leaves the ledger untouched, and publishes *no* status message to the bus
sink — there is no "idle" publish in the code. -/
theorem sync_empty_candidates (deviceRecords : List BloodPressureReading)
    (ledger : Ledger) (garmin : Option GarminSink)
    (garminOutcome : BloodPressureReading → PushOutcome)
    (mqtt : Option MqttSink) (mqttOutcome : BloodPressureReading → Bool)
    (ge me dr : Bool)
    (h : filter_new_records ledger deviceRecords = []) :
    sync deviceRecords ledger garmin garminOutcome mqtt mqttOutcome ge me dr =
      { summary := { device_records := deviceRecords.length, new_records := 0,
                     garmin_uploaded := 0, garmin_skipped := 0,
                     garmin_failed := 0, mqtt_success := 0, mqtt_failed := 0,
                     errors := [] },
        ledger := ledger, statusPublishes := [] } := by
  unfold sync
  by_cases hd : deviceRecords.isEmpty
  · simp [hd]
  · simp [hd, h]

/-- **C4 witness.** A device read consisting of the already-known `exR1`
filters to no candidates; `sync` returns the empty summary and publishes
nothing even though the bus sink is connected. -/
theorem sync_empty_candidates_witness :
    sync [exR1] (mark_as_uploaded [] exR1 false false) (some ⟨true⟩)
        (fun _ => PushOutcome.success) (some ⟨true⟩) (fun _ => true)
        true true false =
      { summary := { device_records := 1, new_records := 0,
                     garmin_uploaded := 0, garmin_skipped := 0,
                     garmin_failed := 0, mqtt_success := 0, mqtt_failed := 0,
                     errors := [] },
        ledger := mark_as_uploaded [] exR1 false false,
        statusPublishes := [] } := by
  have h := sync_empty_candidates [exR1] (mark_as_uploaded [] exR1 false false)
    (some ⟨true⟩) (fun _ => PushOutcome.success) (some ⟨true⟩) (fun _ => true)
    true true false (by decide)
  simpa using h

/-- **C4 counterexample.** With the bus sink connected and
`filter_new_records` empty, the claim requires an `"idle"` status publish;
the code publishes nothing at all on that path. -/
theorem sync_empty_candidates_counterexample :
    filter_new_records (mark_as_uploaded [] exR1 false false) [exR1] = [] ∧
    (sync [exR1] (mark_as_uploaded [] exR1 false false) (some ⟨true⟩)
        (fun _ => PushOutcome.success) (some ⟨true⟩) (fun _ => true)
        true true false).statusPublishes = [] := by
  constructor
  · decide
  · decide

/-- If every attempt from `retries = k` through attempt 4 fails to see a
complete frame, the retry loop raises the transmission-timeout error. -/
theorem send_and_wait_from_error (rx : Nat → Bool) :
    ∀ m k, k + m = 4 → (∀ i, k ≤ i → i < 5 → rx i = false) →
      send_and_wait_from rx k =
        .error "Transmission failed after 5 retries".data := by
  intro m
  induction m with
  | zero =>
    intro k hk hall
    have hk4 : k = 4 := by omega
    subst hk4
    unfold send_and_wait_from
    rw [if_neg (by simp [hall 4 (by omega) (by omega)])]
    rw [if_pos (by omega)]
  | succ m ih =>
    intro k hk hall
    unfold send_and_wait_from
    rw [if_neg (by simp [hall k (by omega) (by omega)])]
    rw [if_neg (show ¬ 5 ≤ k + 1 by omega)]
    exact ih (k + 1) (by omega) (fun i hi hi5 => hall i (by omega) hi5)

/-- If some attempt in `k, …, 4` sees a complete frame, the retry loop
returns without raising. -/
theorem send_and_wait_from_ok (rx : Nat → Bool) :
    ∀ m k, k + m = 4 → (∃ i, k ≤ i ∧ i < 5 ∧ rx i = true) →
      send_and_wait_from rx k = .ok () := by
  intro m
  induction m with
  | zero =>
    intro k hk hex
    have hk4 : k = 4 := by omega
    subst hk4
    obtain ⟨i, hi4, hi5, hrx⟩ := hex
    have : i = 4 := by omega
    subst this
    unfold send_and_wait_from
    rw [if_pos hrx]
  | succ m ih =>
    intro k hk hex
    by_cases hkx : rx k
    · unfold send_and_wait_from
      rw [if_pos hkx]
    · unfold send_and_wait_from
      rw [if_neg (by simp [hkx]), if_neg (show ¬ 5 ≤ k + 1 by omega)]
      obtain ⟨i, hki, hi5, hrx⟩ := hex
      have hik : i ≠ k := by
        intro he
        subst he
        exact hkx hrx
      exact ih (k + 1) (by omega) ⟨i, by omega, hi5, hrx⟩

/-- **C8.** `_send_and_wait` raises the transmission-timeout error exactly
when all of the first 5 attempts fail to receive a complete response
within the timeout; if any of the first 5 attempts sees a complete
inbound frame the operation completes without raising. -/
theorem send_and_wait_timeout_iff (rx : Nat → Bool) :
    (send_and_wait rx = .error "Transmission failed after 5 retries".data ↔
      ∀ i, i < 5 → rx i = false) ∧
    ((∃ i, i < 5 ∧ rx i = true) → send_and_wait rx = .ok ()) := by
  have hok : (∃ i, i < 5 ∧ rx i = true) → send_and_wait rx = .ok () := by
    rintro ⟨i, hi5, hrx⟩
    exact send_and_wait_from_ok rx 4 0 (by omega) ⟨i, Nat.zero_le i, hi5, hrx⟩
  refine ⟨⟨?_, ?_⟩, hok⟩
  · intro herr
    by_contra hnot
    push_neg at hnot
    obtain ⟨i, hi5, hrx⟩ := hnot
    have := hok ⟨i, hi5, by simpa using hrx⟩
    rw [this] at herr
    cases herr
  · intro hall
    exact send_and_wait_from_error rx 4 0 (by omega)
      (fun i _ hi5 => hall i hi5)

/-- **C10.** When an assembled inbound frame declares a payload length
(byte 5) greater than the frame size minus 8, `_rx_callback` raises no
error and substitutes a payload of `0xFF` repeated declared-length times;
an EEPROM block read whose response is such a frame therefore returns
fabricated `0xFF` bytes, and every full `record_byte_size` chunk of them
equals the all-`0xFF` pattern that `get_all_records` treats as an empty
(erased) record slot. -/
theorem rx_oversize_payload_fabricates_ff (frame : List Nat) (address n : Nat)
    (hn : frame.getD 5 0 = n)
    (hcrc : xorBytes frame = 0)
    (hover : (n : Int) > (frame.length : Int) - 8)
    (htype : (frame.drop 1).take 2 = [0x81, 0x00])
    (haddr : (frame.drop 3).take 2 = toBytesBE2 address) :
    rxProcessFrame frame =
      .ok { packet_type := [0x81, 0x00], eeprom_address := toBytesBE2 address,
            data_bytes := List.replicate n 0xFF } ∧
    read_eeprom_block_result frame address = .ok (List.replicate n 0xFF) ∧
    (∀ k, 16 * (k + 1) ≤ n →
      isEmptyRecordChunk 16 (((List.replicate n 0xFF).drop (16 * k)).take 16) =
        true) := by
  have hframe : rxProcessFrame frame =
      .ok { packet_type := [0x81, 0x00], eeprom_address := toBytesBE2 address,
            data_bytes := List.replicate n 0xFF } := by
    rw [rxProcessFrame, if_neg (by simp [hcrc])]
    simp only [htype, haddr, hn, if_pos hover]
  refine ⟨hframe, ?_, ?_⟩
  · rw [read_eeprom_block_result, hframe]
    simp
  · intro k hk
    rw [List.drop_replicate, List.take_replicate, isEmptyRecordChunk]
    have : min 16 (n - 16 * k) = 16 := by omega
    rw [this]
    simp

/-- **C10 witness.** A CRC-valid 16-byte frame of type `0x8100` for address
`0x0230` declaring 16 payload bytes (`16 > 16 − 8`): the receiver returns
16 fabricated `0xFF` bytes, and the one full 16-byte chunk is exactly the
empty-slot pattern. -/
theorem rx_oversize_payload_fabricates_ff_witness :
    read_eeprom_block_result
        [0x10, 0x81, 0x00, 0x02, 0x30, 0x10, 0, 0, 0, 0, 0, 0, 0, 0, 0, 0xB3]
        0x230 = .ok (List.replicate 16 0xFF) ∧
    isEmptyRecordChunk 16
        (((List.replicate 16 0xFF).drop 0).take 16) = true := by
  have h := rx_oversize_payload_fabricates_ff
    [0x10, 0x81, 0x00, 0x02, 0x30, 0x10, 0, 0, 0, 0, 0, 0, 0, 0, 0, 0xB3]
    0x230 16 (by decide) (by decide) (by decide) (by decide) (by decide)
  exact ⟨h.2.1, by simpa using h.2.2 0 (by omega)⟩

/-- `toLEBytes16` followed by `int.from_bytes(·, "little")` reconstructs any
value below `2^128`. -/
theorem intFromBytesLE_toLEBytes16 (n : Nat) (h : n < 2 ^ 128) :
    intFromBytesLE (toLEBytes16 n) = n := by
  simp only [toLEBytes16, intFromBytesLE]
  omega

/-- `_extract_bits` as truncated division and remainder. -/
theorem extract_bits_toLEBytes16 (n f l : Nat) (hn : n < 2 ^ 128) :
    extract_bits (toLEBytes16 n) f l =
      n / 2 ^ (127 - l) % 2 ^ (l - f + 1) := by
  simp only [extract_bits, intFromBytesLE_toLEBytes16 n hn]
  have hlen : (toLEBytes16 n).length = 16 := by simp [toLEBytes16]
  rw [hlen, Nat.shiftRight_eq_div_pow, Nat.and_pow_two_sub_one_eq_mod]
  have hsh : 16 * 8 - (l + 1) = 127 - l := by omega
  rw [hsh]

/-- `daysInMonth` never exceeds 31. -/
theorem daysInMonth_le (y m : Nat) : daysInMonth y m ≤ 31 := by
  unfold daysInMonth
  split
  · split <;> omega
  · split <;> omega

/-- **C7 (amended).** For every reading whose fields fit the bit-field
ranges (minute 0–59, second 0–59, month 1–12, day consistent with the
month, hour 0–23, year 2000–2063, pulse 0–255, diastolic 0–255, systolic
25–280, arbitrary flag bits) *and whose `user_slot` is the default 1*,
`parse_record` applied to the 16-byte little-endian encoding of those
fields at the specified bit positions returns exactly that reading.
(`user_slot` is not stored in the record bytes, so decode always yields
the dataclass default 1.) -/
theorem parse_record_left_inverse (r : BloodPressureReading)
    (hmo1 : 1 ≤ r.timestamp.month) (hmo : r.timestamp.month ≤ 12)
    (hday1 : 1 ≤ r.timestamp.day)
    (hday : r.timestamp.day ≤ daysInMonth r.timestamp.year r.timestamp.month)
    (hhr : r.timestamp.hour ≤ 23)
    (hmi : r.timestamp.minute ≤ 59) (hse : r.timestamp.second ≤ 59)
    (hy1 : 2000 ≤ r.timestamp.year) (hy2 : r.timestamp.year ≤ 2063)
    (hp1 : 0 ≤ r.pulse) (hp2 : r.pulse ≤ 255)
    (hdia1 : 0 ≤ r.diastolic) (hdia2 : r.diastolic ≤ 255)
    (hsys1 : 25 ≤ r.systolic) (hsys2 : r.systolic ≤ 280)
    (hslot : r.user_slot = 1) :
    parse_record (specEncodeRecord r) = some r := by
  obtain ⟨⟨y, mo, dy, hr, mi, se⟩, sys, dia, pu, ihb, mov, slot⟩ := r
  dsimp only at hmo1 hmo hday1 hday hhr hmi hse hy1 hy2 hp1 hp2 hdia1 hdia2 hsys1 hsys2 hslot
  subst hslot
  obtain ⟨s, hs, hs255⟩ : ∃ s : Nat, sys = (s : Int) + 25 ∧ s ≤ 255 :=
    ⟨(sys - 25).toNat, by omega, by omega⟩
  obtain ⟨d2, hd2, hd255⟩ : ∃ d2 : Nat, dia = (d2 : Int) ∧ d2 ≤ 255 :=
    ⟨dia.toNat, by omega, by omega⟩
  obtain ⟨p, hp, hp255⟩ : ∃ p : Nat, pu = (p : Int) ∧ p ≤ 255 :=
    ⟨pu.toNat, by omega, by omega⟩
  subst hs; subst hd2; subst hp
  have hdy31 : dy ≤ 31 := le_trans hday (daysInMonth_le y mo)
  have hib := Bool.toNat_le ihb
  have hmv := Bool.toNat_le mov
  set r0 : BloodPressureReading :=
    { timestamp := ⟨y, mo, dy, hr, mi, se⟩, systolic := (s : Int) + 25,
      diastolic := (d2 : Int), pulse := (p : Int), irregular_heartbeat := ihb,
      body_movement := mov, user_slot := 1 } with hr0
  have hNval : recordFieldsVal r0 =
      s + d2 * 2 ^ 8 + p * 2 ^ 16 + (y - 2000) * 2 ^ 24 + hr * 2 ^ 32 +
      dy * 2 ^ 37 + mo * 2 ^ 42 + ihb.toNat * 2 ^ 46 + mov.toNat * 2 ^ 47 +
      se * 2 ^ 48 + mi * 2 ^ 54 := by
    simp only [recordFieldsVal, hr0]
    norm_num
  have hN128 : recordFieldsVal r0 < 2 ^ 128 := by
    rw [hNval]; norm_num; omega
  have e1 : extract_bits (toLEBytes16 (recordFieldsVal r0)) 68 73 = mi := by
    rw [extract_bits_toLEBytes16 _ _ _ hN128, hNval]; norm_num; omega
  have e2 : extract_bits (toLEBytes16 (recordFieldsVal r0)) 74 79 = se := by
    rw [extract_bits_toLEBytes16 _ _ _ hN128, hNval]; norm_num; omega
  have e3 : extract_bits (toLEBytes16 (recordFieldsVal r0)) 80 80 =
      mov.toNat := by
    rw [extract_bits_toLEBytes16 _ _ _ hN128, hNval]; norm_num; omega
  have e4 : extract_bits (toLEBytes16 (recordFieldsVal r0)) 81 81 =
      ihb.toNat := by
    rw [extract_bits_toLEBytes16 _ _ _ hN128, hNval]; norm_num; omega
  have e5 : extract_bits (toLEBytes16 (recordFieldsVal r0)) 82 85 = mo := by
    rw [extract_bits_toLEBytes16 _ _ _ hN128, hNval]; norm_num; omega
  have e6 : extract_bits (toLEBytes16 (recordFieldsVal r0)) 86 90 = dy := by
    rw [extract_bits_toLEBytes16 _ _ _ hN128, hNval]; norm_num; omega
  have e7 : extract_bits (toLEBytes16 (recordFieldsVal r0)) 91 95 = hr := by
    rw [extract_bits_toLEBytes16 _ _ _ hN128, hNval]; norm_num; omega
  have e8 : extract_bits (toLEBytes16 (recordFieldsVal r0)) 98 103 =
      y - 2000 := by
    rw [extract_bits_toLEBytes16 _ _ _ hN128, hNval]; norm_num; omega
  have e9 : extract_bits (toLEBytes16 (recordFieldsVal r0)) 104 111 = p := by
    rw [extract_bits_toLEBytes16 _ _ _ hN128, hNval]; norm_num; omega
  have e10 : extract_bits (toLEBytes16 (recordFieldsVal r0)) 112 119 =
      d2 := by
    rw [extract_bits_toLEBytes16 _ _ _ hN128, hNval]; norm_num; omega
  have e11 : extract_bits (toLEBytes16 (recordFieldsVal r0)) 120 127 = s := by
    rw [extract_bits_toLEBytes16 _ _ _ hN128, hNval]; norm_num; omega
  have hboolcast : ∀ b : Bool, (b.toNat != 0) = b := by decide
  show parse_record (toLEBytes16 (recordFieldsVal r0)) = some r0
  simp only [parse_record, e1, e2, e3, e4, e5, e6, e7, e8, e9, e10, e11,
    Nat.min_eq_left hse, hboolcast]
  have hyr : y - 2000 + 2000 = y := by omega
  rw [hyr]
  rw [if_pos (by
    simp only [validDateTime, Bool.and_eq_true, decide_eq_true_eq]
    refine ⟨⟨⟨⟨⟨⟨⟨⟨?_, ?_⟩, ?_⟩, ?_⟩, ?_⟩, ?_⟩, ?_⟩, ?_⟩, ?_⟩ <;> omega)]
  simp only [hr0, Option.some.injEq, BloodPressureReading.mk.injEq]
  norm_num

/-- **C7 witness.** Scenario S1: the reading `2025-12-26T22:59:22`,
139/83 mmHg, pulse 73, slot 1 round-trips through the encoder and
`parse_record`. -/
theorem parse_record_left_inverse_witness :
    parse_record (specEncodeRecord exR1) = some exR1 :=
  parse_record_left_inverse exR1 (by decide) (by decide) (by decide)
    (by decide) (by decide) (by decide) (by decide) (by decide) (by decide)
    (by decide) (by decide) (by decide) (by decide) (by decide) (by decide)
    (by decide)

/-- **C7 counterexample.** The record format has no `user_slot` field, so
the claim fails for readings on slot 2: all bit-field ranges hold for
`exR1slot2` (the S1 reading on user slot 2), yet decoding its encoding
yields the slot-1 reading, not the reading itself. -/
theorem parse_record_left_inverse_counterexample :
    validDateTime exR1slot2.timestamp = true ∧
    25 ≤ exR1slot2.systolic ∧ exR1slot2.systolic ≤ 280 ∧
    0 ≤ exR1slot2.diastolic ∧ exR1slot2.diastolic ≤ 255 ∧
    0 ≤ exR1slot2.pulse ∧ exR1slot2.pulse ≤ 255 ∧
    parse_record (specEncodeRecord exR1slot2) = some exR1 ∧
    parse_record (specEncodeRecord exR1slot2) ≠ some exR1slot2 := by
  refine ⟨by decide, by decide, by decide, by decide, by decide, by decide,
    by decide, by decide, by decide⟩

/-- ASCII value of a digit character. -/
theorem decDigitChar_toNat : ∀ n, n < 10 → (decDigitChar n).toNat = 48 + n := by
  decide

/-- `decValue` over a snoc. -/
theorem decValue_append (xs : List Char) (c : Char) :
    decValue (xs ++ [c]) = decValue xs * 10 + (c.toNat - 48) := by
  unfold decValue
  rw [List.foldl_append]
  rfl

/-- `decValue` is a left inverse of the fueled digit renderer. -/
theorem decDigitsAux_parse :
    ∀ fuel n, n ≤ fuel → decValue (decDigitsAux fuel n) = n := by
  intro fuel
  induction fuel with
  | zero =>
    intro n hn
    have hn0 : n = 0 := by omega
    subst hn0
    decide
  | succ fuel ih =>
    intro n hn
    by_cases h10 : n < 10
    · simp only [decDigitsAux, if_pos h10]
      show 0 * 10 + ((decDigitChar n).toNat - 48) = n
      rw [decDigitChar_toNat n h10]
      omega
    · simp only [decDigitsAux, if_neg h10]
      rw [decValue_append, ih (n / 10) (by omega),
        decDigitChar_toNat (n % 10) (by omega)]
      omega

/-- `decValue` is a left inverse of `natToDec`. -/
theorem natToDec_parse (n : Nat) : decValue (natToDec n) = n :=
  decDigitsAux_parse n n le_rfl

/-- `natToDec` is injective. -/
theorem natToDec_inj (m n : Nat) (h : natToDec m = natToDec n) : m = n := by
  rw [← natToDec_parse m, h, natToDec_parse]

/-- Every character the fueled renderer emits is an ASCII digit. -/
theorem decDigitsAux_digit_range :
    ∀ fuel n, n ≤ fuel → ∀ c ∈ decDigitsAux fuel n,
      48 ≤ c.toNat ∧ c.toNat ≤ 57 := by
  intro fuel
  induction fuel with
  | zero =>
    intro n hn c hc
    have hn0 : n = 0 := by omega
    subst hn0
    simp only [decDigitsAux, List.mem_singleton] at hc
    subst hc
    decide
  | succ fuel ih =>
    intro n hn c hc
    by_cases h10 : n < 10
    · simp only [decDigitsAux, if_pos h10, List.mem_singleton] at hc
      subst hc
      rw [decDigitChar_toNat n h10]
      omega
    · simp only [decDigitsAux, if_neg h10, List.mem_append,
        List.mem_singleton] at hc
      rcases hc with hc | hc
      · exact ih (n / 10) (by omega) c hc
      · subst hc
        rw [decDigitChar_toNat (n % 10) (by omega)]
        omega

/-- Every character of `natToDec n` is an ASCII digit. -/
theorem natToDec_digit_range (n : Nat) :
    ∀ c ∈ natToDec n, 48 ≤ c.toNat ∧ c.toNat ≤ 57 :=
  decDigitsAux_digit_range n n le_rfl

/-- `natToDec` never contains an underscore. -/
theorem underscore_not_mem_natToDec (n : Nat) : '_' ∉ natToDec n := by
  intro h
  have hr := natToDec_digit_range n _ h
  have h95 : ('_').toNat = 95 := rfl
  omega

/-- The fueled renderer never returns the empty string. -/
theorem decDigitsAux_ne_nil (fuel n : Nat) : decDigitsAux fuel n ≠ [] := by
  cases fuel with
  | zero => simp [decDigitsAux]
  | succ fuel =>
    by_cases h10 : n < 10
    · simp [decDigitsAux, if_pos h10]
    · simp [decDigitsAux, if_neg h10]

/-- `natToDec` has at least one character. -/
theorem natToDec_length_pos (n : Nat) : 1 ≤ (natToDec n).length := by
  have := decDigitsAux_ne_nil n n
  cases hcase : natToDec n with
  | nil => exact absurd hcase this
  | cons c cs => simp

/-- Digit-count bound for the fueled renderer. -/
theorem decDigitsAux_length_le :
    ∀ fuel n k, n ≤ fuel → n < 10 ^ (k + 1) →
      (decDigitsAux fuel n).length ≤ k + 1 := by
  intro fuel
  induction fuel with
  | zero =>
    intro n k hn _
    have hn0 : n = 0 := by omega
    subst hn0
    simp [decDigitsAux]
  | succ fuel ih =>
    intro n k hn hk
    by_cases h10 : n < 10
    · simp [decDigitsAux, if_pos h10]
    · cases k with
      | zero =>
        exfalso
        rw [pow_one] at hk
        omega
      | succ k =>
        simp only [decDigitsAux, if_neg h10, List.length_append,
          List.length_singleton]
        have hdiv : n / 10 < 10 ^ (k + 1) := by
          rw [Nat.div_lt_iff_lt_mul (by omega)]
          calc n < 10 ^ (k + 1 + 1) := hk
          _ = 10 ^ (k + 1) * 10 := by ring
        have := ih (n / 10) k (by omega) hdiv
        omega

/-- Digit-count bound for `natToDec`. -/
theorem natToDec_length_le (n k : Nat) (h : n < 10 ^ (k + 1)) :
    (natToDec n).length ≤ k + 1 :=
  decDigitsAux_length_le n n k le_rfl h

/-- Folding the parser over leading zeros keeps the accumulator at 0. -/
theorem decValue_replicate_zero (s : List Char) (k : Nat) :
    decValue (List.replicate k '0' ++ s) = decValue s := by
  unfold decValue
  rw [List.foldl_append]
  have : List.foldl (fun acc c => acc * 10 + (c.toNat - 48)) 0
      (List.replicate k '0') = 0 := by
    induction k with
    | zero => rfl
    | succ k ihk => simpa [List.replicate_succ] using ihk
  rw [this]

/-- `decValue` is a left inverse of `pad2`. -/
theorem pad2_parse (n : Nat) : decValue (pad2 n) = n := by
  rw [pad2, decValue_replicate_zero, natToDec_parse]

/-- `decValue` is a left inverse of `pad4`. -/
theorem pad4_parse (n : Nat) : decValue (pad4 n) = n := by
  rw [pad4, decValue_replicate_zero, natToDec_parse]

/-- `pad2` renders exactly two characters for values up to 99. -/
theorem pad2_length (n : Nat) (h : n ≤ 99) : (pad2 n).length = 2 := by
  rw [pad2, List.length_append, List.length_replicate]
  have h1 := natToDec_length_pos n
  have h2 := natToDec_length_le n 1 (lt_of_le_of_lt h (by norm_num))
  omega

/-- `pad4` renders exactly four characters for values up to 9999. -/
theorem pad4_length (n : Nat) (h : n ≤ 9999) : (pad4 n).length = 4 := by
  rw [pad4, List.length_append, List.length_replicate]
  have h1 := natToDec_length_pos n
  have h2 := natToDec_length_le n 3 (lt_of_le_of_lt h (by norm_num))
  omega

/-- The numeric bounds guaranteed by `validDateTime`. -/
theorem validDateTime_bounds (t : PyDateTime) (h : validDateTime t = true) :
    1 ≤ t.year ∧ t.year ≤ 9999 ∧ 1 ≤ t.month ∧ t.month ≤ 12 ∧
    1 ≤ t.day ∧ t.day ≤ 31 ∧ t.hour ≤ 23 ∧ t.minute ≤ 59 ∧
    t.second ≤ 59 := by
  simp only [validDateTime, Bool.and_eq_true, decide_eq_true_eq] at h
  obtain ⟨⟨⟨⟨⟨⟨⟨⟨hy1, hy2⟩, hm1⟩, hm2⟩, hd1⟩, hd2⟩, hh⟩, hmi⟩, hse⟩ := h
  have := daysInMonth_le t.year t.month
  exact ⟨hy1, hy2, hm1, hm2, hd1, by omega, hh, hmi, hse⟩

/-- A valid datetime always renders as exactly 19 characters
(`YYYY-MM-DDTHH:MM:SS`). -/
theorem isoformat_length (t : PyDateTime) (h : validDateTime t = true) :
    (isoformat t).length = 19 := by
  obtain ⟨hy1, hy2, hm1, hm2, hd1, hd2, hh, hmi, hse⟩ := validDateTime_bounds t h
  rw [isoformat]
  simp only [List.length_append, List.length_cons]
  rw [pad4_length _ (by omega), pad2_length _ (by omega),
    pad2_length _ (by omega), pad2_length _ (by omega),
    pad2_length _ (by omega), pad2_length _ (by omega)]

/-- `isoformat` is injective on valid datetimes. -/
theorem isoformat_inj (t1 t2 : PyDateTime)
    (h1 : validDateTime t1 = true) (h2 : validDateTime t2 = true)
    (heq : isoformat t1 = isoformat t2) : t1 = t2 := by
  obtain ⟨hy1a, hy2a, hm1a, hm2a, hd1a, hd2a, hha, hmia, hsea⟩ :=
    validDateTime_bounds t1 h1
  obtain ⟨hy1b, hy2b, hm1b, hm2b, hd1b, hd2b, hhb, hmib, hseb⟩ :=
    validDateTime_bounds t2 h2
  rw [isoformat, isoformat] at heq
  obtain ⟨ey, heq⟩ := List.append_inj heq
    (by rw [pad4_length _ (by omega), pad4_length _ (by omega)])
  injection heq with _ heq
  obtain ⟨emo, heq⟩ := List.append_inj heq
    (by rw [pad2_length _ (by omega), pad2_length _ (by omega)])
  injection heq with _ heq
  obtain ⟨ed, heq⟩ := List.append_inj heq
    (by rw [pad2_length _ (by omega), pad2_length _ (by omega)])
  injection heq with _ heq
  obtain ⟨eh, heq⟩ := List.append_inj heq
    (by rw [pad2_length _ (by omega), pad2_length _ (by omega)])
  injection heq with _ heq
  obtain ⟨emi, ese⟩ := List.append_inj heq
    (by rw [pad2_length _ (by omega), pad2_length _ (by omega)])
  injection ese with _ ese
  have hy : t1.year = t2.year := by
    rw [← pad4_parse t1.year, ey, pad4_parse]
  have hmo : t1.month = t2.month := by
    rw [← pad2_parse t1.month, emo, pad2_parse]
  have hd : t1.day = t2.day := by
    rw [← pad2_parse t1.day, ed, pad2_parse]
  have hh : t1.hour = t2.hour := by
    rw [← pad2_parse t1.hour, eh, pad2_parse]
  have hmi : t1.minute = t2.minute := by
    rw [← pad2_parse t1.minute, emi, pad2_parse]
  have hse : t1.second = t2.second := by
    rw [← pad2_parse t1.second, ese, pad2_parse]
  cases t1; cases t2
  simp only [PyDateTime.mk.injEq]
  exact ⟨hy, hmo, hd, hh, hmi, hse⟩

/-- Splitting at an underscore separator is unambiguous when neither
left-hand part contains an underscore. -/
theorem append_underscore_inj :
    ∀ (a b x y : List Char), '_' ∉ a → '_' ∉ b →
      a ++ '_' :: x = b ++ '_' :: y → a = b ∧ x = y := by
  intro a
  induction a with
  | nil =>
    intro b x y _ hb h
    cases b with
    | nil => simpa using h
    | cons d bs =>
      exfalso
      simp only [List.nil_append, List.cons_append, List.cons.injEq] at h
      exact hb (h.1 ▸ List.mem_cons_self d bs)
  | cons c as ih =>
    intro b x y ha hb h
    cases b with
    | nil =>
      exfalso
      simp only [List.cons_append, List.nil_append, List.cons.injEq] at h
      exact ha (h.1.symm ▸ List.mem_cons_self c as)
    | cons d bs =>
      simp only [List.cons_append, List.cons.injEq] at h
      obtain ⟨hcd, h2⟩ := h
      have has : '_' ∉ as := fun hmem => ha (List.mem_cons_of_mem c hmem)
      have hbs : '_' ∉ bs := fun hmem => hb (List.mem_cons_of_mem d hmem)
      obtain ⟨hab, hxy⟩ := ih bs x y has hbs h2
      exact ⟨by rw [hcd, hab], hxy⟩

/-- `intToDec` never contains an underscore. -/
theorem intToDec_no_underscore (i : Int) : '_' ∉ intToDec i := by
  rw [intToDec]
  split
  · intro h
    rcases List.mem_cons.mp h with h | h
    · cases h
    · exact underscore_not_mem_natToDec _ h
  · exact underscore_not_mem_natToDec _

/-- `intToDec` is injective (the Python `str` of an `int` determines the
`int`). -/
theorem intToDec_inj (a b : Int) (h : intToDec a = intToDec b) : a = b := by
  rw [intToDec, intToDec] at h
  by_cases ha : a < 0 <;> by_cases hb : b < 0
  · rw [if_pos ha, if_pos hb] at h
    injection h with _ h2
    have := natToDec_inj _ _ h2
    omega
  · rw [if_pos ha, if_neg hb] at h
    exfalso
    have hm : '-' ∈ natToDec b.toNat := by
      rw [← h]
      exact List.mem_cons_self _ _
    have := natToDec_digit_range _ _ hm
    have h45 : ('-').toNat = 45 := rfl
    omega
  · rw [if_neg ha, if_pos hb] at h
    exfalso
    have hm : '-' ∈ natToDec a.toNat := by
      rw [h]
      exact List.mem_cons_self _ _
    have := natToDec_digit_range _ _ hm
    have h45 : ('-').toNat = 45 := rfl
    omega
  · rw [if_neg ha, if_neg hb] at h
    have := natToDec_inj _ _ h
    omega

/-- **C9.** The record fingerprint is a deterministic function of
`(timestamp, systolic, diastolic, pulse, user_slot)`: two readings (with
the range-valid timestamps `datetime` guarantees) have equal fingerprints
exactly when they agree on all five fields — so equal fields give equal
fingerprints and any differing field gives different fingerprints. -/
theorem record_hash_determines_fields (r1 r2 : BloodPressureReading)
    (h1 : validDateTime r1.timestamp = true)
    (h2 : validDateTime r2.timestamp = true) :
    BloodPressureReading.record_hash r1 = BloodPressureReading.record_hash r2 ↔
      (r1.timestamp = r2.timestamp ∧ r1.systolic = r2.systolic ∧
       r1.diastolic = r2.diastolic ∧ r1.pulse = r2.pulse ∧
       r1.user_slot = r2.user_slot) := by
  constructor
  · intro h
    rw [BloodPressureReading.record_hash, BloodPressureReading.record_hash] at h
    obtain ⟨hiso, h⟩ := List.append_inj h
      (by rw [isoformat_length _ h1, isoformat_length _ h2])
    injection h with _ h
    obtain ⟨hsys, h⟩ := append_underscore_inj _ _ _ _
      (intToDec_no_underscore _) (intToDec_no_underscore _) h
    obtain ⟨hdia, h⟩ := append_underscore_inj _ _ _ _
      (intToDec_no_underscore _) (intToDec_no_underscore _) h
    obtain ⟨hpul, h⟩ := append_underscore_inj _ _ _ _
      (intToDec_no_underscore _) (intToDec_no_underscore _) h
    exact ⟨isoformat_inj _ _ h1 h2 hiso, intToDec_inj _ _ hsys,
      intToDec_inj _ _ hdia, intToDec_inj _ _ hpul, intToDec_inj _ _ h⟩
  · rintro ⟨hts, hsys, hdia, hpul, hslot⟩
    rw [BloodPressureReading.record_hash, BloodPressureReading.record_hash,
      hts, hsys, hdia, hpul, hslot]

/-- **C9 witness.** `exR1` and `exR2` differ only in pulse (73 vs 74), so
their fingerprints differ. -/
theorem record_hash_determines_fields_witness :
    BloodPressureReading.record_hash exR1 ≠
      BloodPressureReading.record_hash exR2 := by
  intro h
  have hfields :=
    (record_hash_determines_fields exR1 exR2 (by decide) (by decide)).mp h
  have hpulse : exR1.pulse = exR2.pulse := hfields.2.2.2.1
  exact absurd hpulse (by decide)

/-- **C8 witness.** With attempts 0–3 timing out and attempt 4 receiving a
complete frame, the operation completes; with every attempt timing out it
raises after exactly 5 attempts. -/
theorem send_and_wait_timeout_iff_witness :
    send_and_wait (fun k => k == 4) = .ok () ∧
    send_and_wait (fun _ => false) =
      .error "Transmission failed after 5 retries".data := by
  constructor
  · exact (send_and_wait_timeout_iff (fun k => k == 4)).2 ⟨4, by omega, rfl⟩
  · exact (send_and_wait_timeout_iff (fun _ => false)).1.mpr (fun i _ => rfl)

end Omron
